import Mathlib

/-!
Verification development for the TrackNote statement-parsing core
(src/parsing.py and the fingerprint helper in src/app.py).

Python strings are modelled as `List Char` (Python indexes strings by code
point, exactly matching `List Char`); `String` wrappers are provided where the
source function takes/returns `str`.  Python `None` is modelled by `Option`.
Python floats are modelled by `ℚ` restricted to finite decimal literals (the
special values `nan`/`inf` and underscore separators accepted by `float()` are
outside the model).  The character classes `\d`, `\s`, `str.isalpha`,
`str.lower`/`str.upper` and `unicodedata` tables are modelled on the repertoire
the program's data actually uses: ASCII plus the Lithuanian diacritic letters
and their combining marks; all other code points are treated as plain
(class-less, case-less, decomposition-free) characters.
-/

/-- Python `\d` (modelled on ASCII digits `0`-`9`). -/
def isPyDigit (c : Char) : Bool := 48 ≤ c.toNat && c.toNat ≤ 57

/-- Python `\s` / `str.split()` / `str.strip()` whitespace
(modelled on the ASCII whitespace characters). -/
def isPySpace (c : Char) : Bool :=
  c.toNat == 32 || c.toNat == 9 || c.toNat == 10 ||
  c.toNat == 13 || c.toNat == 11 || c.toNat == 12

/-- Values (code points) of the Lithuanian diacritic letters
ĄČĘĖĮŠŲŪŽ / ąčęėįšųūž used by the statement data. -/
def ltLetterVals : List Nat :=
  [0x104, 0x10C, 0x118, 0x116, 0x12E, 0x160, 0x172, 0x16A, 0x17D,
   0x105, 0x10D, 0x119, 0x117, 0x12F, 0x161, 0x173, 0x16B, 0x17E]

/-- Python `str.isalpha` (modelled on ASCII letters plus the Lithuanian
diacritic letters). -/
def isAlphaPy (c : Char) : Bool :=
  (65 ≤ c.toNat && c.toNat ≤ 90) || (97 ≤ c.toNat && c.toNat ≤ 122) ||
  ltLetterVals.contains c.toNat

/-- Lowercasing table for the non-ASCII letters of the model
(`str.lower`), keyed by code point. -/
def ltLowerTable : List (Nat × Char) :=
  [(0x104, 'ą'), (0x10C, 'č'), (0x118, 'ę'), (0x116, 'ė'), (0x12E, 'į'),
   (0x160, 'š'), (0x172, 'ų'), (0x16A, 'ū'), (0x17D, 'ž')]

/-- Uppercasing table for the non-ASCII letters of the model
(`str.upper`), keyed by code point. -/
def ltUpperTable : List (Nat × Char) :=
  [(0x105, 'Ą'), (0x10D, 'Č'), (0x119, 'Ę'), (0x117, 'Ė'), (0x12F, 'Į'),
   (0x161, 'Š'), (0x173, 'Ų'), (0x16B, 'Ū'), (0x17E, 'Ž')]

/-- Python `str.lower` on one character. -/
def lowerChar (c : Char) : Char :=
  if 65 ≤ c.toNat ∧ c.toNat ≤ 90 then Char.ofNat (c.toNat + 32)
  else (((ltLowerTable.find? (fun p => p.1 == c.toNat)).map Prod.snd).getD c)

/-- Python `str.upper` on one character. -/
def upperChar (c : Char) : Char :=
  if 97 ≤ c.toNat ∧ c.toNat ≤ 122 then Char.ofNat (c.toNat - 32)
  else (((ltUpperTable.find? (fun p => p.1 == c.toNat)).map Prod.snd).getD c)

/-- NFD canonical decomposition (`unicodedata.normalize("NFD", ·)`) of one
character, for the model's repertoire: each Lithuanian diacritic letter
decomposes into its base letter followed by a combining mark (U+0328 ogonek,
U+030C caron, U+0307 dot above, U+0304 macron). -/
def nfdTable : List (Nat × List Char) :=
  [(0x104, ['A', Char.ofNat 0x328]), (0x105, ['a', Char.ofNat 0x328]),
   (0x10C, ['C', Char.ofNat 0x30C]), (0x10D, ['c', Char.ofNat 0x30C]),
   (0x118, ['E', Char.ofNat 0x328]), (0x119, ['e', Char.ofNat 0x328]),
   (0x116, ['E', Char.ofNat 0x307]), (0x117, ['e', Char.ofNat 0x307]),
   (0x12E, ['I', Char.ofNat 0x328]), (0x12F, ['i', Char.ofNat 0x328]),
   (0x160, ['S', Char.ofNat 0x30C]), (0x161, ['s', Char.ofNat 0x30C]),
   (0x172, ['U', Char.ofNat 0x328]), (0x173, ['u', Char.ofNat 0x328]),
   (0x16A, ['U', Char.ofNat 0x304]), (0x16B, ['u', Char.ofNat 0x304]),
   (0x17D, ['Z', Char.ofNat 0x30C]), (0x17E, ['z', Char.ofNat 0x30C])]

/-- NFD decomposition of one character (identity outside the table). -/
def nfdChar (c : Char) : List Char :=
  ((nfdTable.find? (fun p => p.1 == c.toNat)).map Prod.snd).getD [c]

/-- Code points of Unicode category `Mn` (nonspacing combining marks) in the
model: the four marks produced by `nfdTable`. -/
def mnVals : List Nat := [0x328, 0x30C, 0x307, 0x304]

/-- Membership of Unicode category `Mn` (`unicodedata.category(ch) == "Mn"`). -/
def isMn (c : Char) : Bool := mnVals.contains c.toNat

/-- Single pass of Python `str.split()`: `acc` holds the reversed characters
of the word currently being read. -/
def wordsAux : List Char → List Char → List (List Char)
  | [], acc => if acc = [] then [] else [acc.reverse]
  | c :: rest, acc =>
    if isPySpace c then
      if acc = [] then wordsAux rest []
      else acc.reverse :: wordsAux rest []
    else wordsAux rest (c :: acc)

/-- Python `str.split()` with no argument: split on whitespace runs,
dropping empty fields. -/
def words (l : List Char) : List (List Char) := wordsAux l []

/-- Python `" ".join(...)` over a list of words. -/
def unwords : List (List Char) → List Char
  | [] => []
  | [w] => w
  | w :: ws => w ++ ' ' :: unwords ws

/-- Python `" ".join(s.split())`: collapse whitespace runs to single spaces
and strip both ends. -/
def collapseWS (l : List Char) : List Char := unwords (words l)

/-- Python `str.lstrip(chars)` for a character class. -/
def trimLeftBy (p : Char → Bool) (l : List Char) : List Char := l.dropWhile p

/-- Python `str.strip(chars)` for a character class (both ends). -/
def trimBy (p : Char → Bool) (l : List Char) : List Char :=
  ((l.dropWhile p).reverse.dropWhile p).reverse

/-- Python `str.strip()` (default whitespace, both ends). -/
def trimWS (l : List Char) : List Char := trimBy isPySpace l

/-- The punctuation / separator class of `strip(" \t-,:;")` at
src/parsing.py:49. -/
def isSepPunct (c : Char) : Bool :=
  c == ' ' || c == '\t' || c == '-' || c == ',' || c == ':' || c == ';'

/-- Numeric value of a digit list (most significant first). -/
def digitsToNat (l : List Char) : Nat :=
  l.foldl (fun acc c => acc * 10 + (c.toNat - 48)) 0

/-- Model of Python `float(s)` returning an exact rational: optional
surrounding whitespace, optional sign, decimal digits with an optional
fractional part and an optional `e`/`E` exponent; at least one digit is
required around the decimal point.  (`nan`, `inf` and `_` separators are
outside the model.)  Returns `none` where `float()` raises `ValueError`. -/
def pyFloat (s : List Char) : Option ℚ :=
  let t := trimWS s
  let (sgn, r1) : Int × List Char :=
    match t with
    | '+' :: r => (1, r)
    | '-' :: r => (-1, r)
    | r => (1, r)
  let ip := r1.takeWhile isPyDigit
  let r2 := r1.dropWhile isPyDigit
  let (fp, r3) : List Char × List Char :=
    match r2 with
    | '.' :: r => (r.takeWhile isPyDigit, r.dropWhile isPyDigit)
    | r => ([], r)
  if ip = [] ∧ fp = [] then none
  else
    -- value = sgn · (N(ip)·10^|fp| + N(fp)) / 10^|fp|, scaled by 10^(±exp)
    let num : Int := sgn * Int.ofNat (digitsToNat ip * 10 ^ fp.length + digitsToNat fp)
    let den : Nat := 10 ^ fp.length
    match r3 with
    | [] => some (mkRat num den)
    | e :: r4 =>
      if e = 'e' ∨ e = 'E' then
        let (esgn, r5) : Bool × List Char :=
          match r4 with
          | '+' :: r => (true, r)
          | '-' :: r => (false, r)
          | r => (true, r)
        let ed := r5.takeWhile isPyDigit
        let r6 := r5.dropWhile isPyDigit
        if ed = [] ∨ r6 ≠ [] then none
        else if esgn then some (mkRat (num * Int.ofNat (10 ^ digitsToNat ed)) den)
        else some (mkRat num (den * 10 ^ digitsToNat ed))
      else none

/-- Python `str(float)`-independent helper: `float(s)` via `String`. -/
def pyFloatS (s : String) : Option ℚ := pyFloat s.data

/-!
The IBAN regex `IBAN_RE = re.compile(r"(?i)LT\s*\d(?:\s*\d){15,19}")`
(src/parsing.py:19).  `re.search` finds the leftmost position admitting a
match; at that position `\s*` and the greedy counted group consume as much as
possible.  Because the counted group `(?:\s*\d)` can never end just before a
character it could itself consume, backtracking never produces a shorter
match, so the greedy match is simply the maximal one (capped at 19 repeats).
-/

/-- Greedily consume up to `fuel` repetitions of `\s*\d`; returns the number
of repetitions and the length consumed (up to and including the last digit). -/
def wsDigitGroups : List Char → Nat → Nat × Nat
  | _, 0 => (0, 0)
  | l, fuel + 1 =>
    let ws := l.takeWhile isPySpace
    match l.dropWhile isPySpace with
    | c :: rest =>
      if isPyDigit c then
        let (g, len) := wsDigitGroups rest fuel
        (g + 1, ws.length + 1 + len)
      else (0, 0)
    | [] => (0, 0)

/-- Attempt to match `IBAN_RE` anchored at the head of `l`; returns the
length of the (greedy) match. -/
def matchIbanAt (l : List Char) : Option Nat :=
  match l with
  | c1 :: c2 :: rest =>
    if (c1 = 'L' ∨ c1 = 'l') ∧ (c2 = 'T' ∨ c2 = 't') then
      let ws := rest.takeWhile isPySpace
      match rest.dropWhile isPySpace with
      | d :: rest2 =>
        if isPyDigit d then
          let (g, len) := wsDigitGroups rest2 19
          if 15 ≤ g then some (2 + ws.length + 1 + len) else none
        else none
      | [] => none
    else none
  | _ => none

/-- Scan for the leftmost `IBAN_RE` match (`IBAN_RE.search`); returns the
match span `(start, end)` in code-point indices. -/
def ibanSearchAux : List Char → Nat → Option (Nat × Nat)
  | [], _ => none
  | c :: rest, i =>
    match matchIbanAt (c :: rest) with
    | some len => some (i, i + len)
    | none => ibanSearchAux rest (i + 1)

/-- Model of `IBAN_RE.search(s)` returning the span of the first match. -/
def ibanSearch (l : List Char) : Option (Nat × Nat) := ibanSearchAux l 0

/-- Model of `_clean_iban` (src/parsing.py:21-28): keep the letters
(uppercased) and digits; result is `"LT"` + digits when the letters start
with `LT`, else the first two letters + digits. -/
def cleanIban (raw : List Char) : List Char :=
  let r := trimWS raw
  if r = [] then []
  else
    let letters := (r.filter isAlphaPy).map upperChar
    let digits := r.filter isPyDigit
    (if letters.take 2 = ['L', 'T'] then ['L', 'T'] else letters.take 2) ++ digits

/-- Model of `split_details` (src/parsing.py:36-57) on `List Char`. -/
def split_details_l (s : List Char) : List Char × List Char × List Char :=
  if s = [] then ([], [], [])
  else
    match ibanSearch s with
    | some (st, en) =>
      -- lines 45-50: slice by match indices
      let name := collapseWS (s.take st)
      let comment := trimBy isSepPunct (s.drop en)
      let iban := cleanIban ((s.take en).drop st)
      (name, iban, comment)
    | none =>
      -- lines 52-56: first two tokens as name, rest as comment
      let parts := words s
      let name : List Char :=
        match parts with
        | p1 :: p2 :: _ => p1 ++ ' ' :: p2
        | [p1] => p1
        | [] => []
      let comment := trimWS (s.drop name.length)
      (name, [], comment)

/-- Model of `split_details` on `String`. -/
def split_details (s : String) : String × String × String :=
  let (n, i, c) := split_details_l s.data
  (⟨n⟩, ⟨i⟩, ⟨c⟩)

/-- Model of `normalize` (src/parsing.py:30-34) on `List Char`: lowercase,
NFD-decompose, drop category-`Mn` marks, collapse whitespace. -/
def normList (l : List Char) : List Char :=
  collapseWS (((l.map lowerChar).flatMap nfdChar).filter (fun c => !isMn c))

/-- Model of `normalize` on `String` (named `normalizeStr` because Mathlib
already owns the bare name `normalize`). -/
def normalizeStr (s : String) : String := ⟨normList s.data⟩

/-- A parsed transaction record (the dict built by each extractor).  `date`
and `iban` are `Option String` because the XML extractor can store Python
`None` in them; the other extractors always store strings. -/
structure Txn where
  date : Option String
  payer : String
  details : String
  amount : ℚ
  iban : Option String
deriving DecidableEq

/-- Python exceptions that the parsing code can raise. -/
inductive PyErr where
  | keyError : String → PyErr
  | statementParsingError : String → PyErr
  | missingColumnsError : String → PyErr
deriving DecidableEq

/-!
Model of `XMLBankStatementParser` (src/parsing.py:167-298).  An `Ntry`
element is modelled by the results of the fixed XPath lookups
`_process_entry` performs: `some t` means the element was found and its
`.text` is `t` (itself an `Option String`, since ElementTree gives `None`
for an empty element); `none` means `find` returned `None`.
-/

/-- Lookups under `NtryDtls/TxDtls/RltdPties`. -/
structure RltdPties where
  dbtrNm : Option (Option String)        -- find('ns:Dbtr/ns:Nm')
  dbtrAcctIban : Option (Option String)  -- find('ns:DbtrAcct/ns:Id/ns:IBAN')
deriving DecidableEq

/-- One `Strd` node: the lookup `find('ns:CdtrRefInf/ns:Ref')`. -/
structure Strd where
  cdtrRef : Option (Option String)
deriving DecidableEq

/-- Lookups under `NtryDtls/TxDtls/RmtInf`. -/
structure RmtInf where
  ustrd : List (Option String)           -- findall('ns:Ustrd'), texts
  strd : List Strd                       -- findall('ns:Strd')
deriving DecidableEq

/-- Lookups under `NtryDtls/TxDtls`. -/
structure TxDtls where
  rltdPties : Option RltdPties
  rmtInf : Option RmtInf
deriving DecidableEq

/-- One `Ntry` element, as seen through `_process_entry`'s lookups. -/
structure Ntry where
  bookgDtDt : Option (Option String)     -- find('ns:BookgDt/ns:Dt')
  amt : Option (Option String)           -- find('ns:Amt')
  cdtDbtInd : Option (Option String)     -- find('ns:CdtDbtInd')
  txDtls : Option TxDtls                 -- find('ns:NtryDtls/ns:TxDtls')
deriving DecidableEq

/-- Python `x or default` for an optional string (`None` and `""` are falsy). -/
def pyOrStr (v : Option String) (dflt : String) : String :=
  match v with
  | some s => if s = "" then dflt else s
  | none => dflt

/-- Python `str.upper` on a whole string. -/
def pyUpper (s : String) : String := ⟨s.data.map upperChar⟩

/-- The `payer` variable of `_process_entry` after lines 240-254: initially
`""`, reassigned to `Dbtr/Nm`'s text (possibly `None`) when the node chain is
present. -/
def xmlPayerRaw (td? : Option TxDtls) : Option String :=
  match td? with
  | none => some ""
  | some td =>
    match td.rltdPties with
    | none => some ""
    | some rp =>
      match rp.dbtrNm with
      | none => some ""
      | some t => t

/-- The `iban` variable of `_process_entry` after lines 243-259 (before the
details fallback): initially `""`, reassigned to `DbtrAcct/Id/IBAN`'s text
(possibly `None`) when the node chain is present. -/
def xmlIbanRaw (td? : Option TxDtls) : Option String :=
  match td? with
  | none => some ""
  | some td =>
    match td.rltdPties with
    | none => some ""
    | some rp =>
      match rp.dbtrAcctIban with
      | none => some ""
      | some t => t

/-- The `details` variable of `_process_entry` after lines 261-283: join the
truthy `Ustrd` texts when any `Ustrd` node exists; if the result is empty,
fall back to joining the truthy `CdtrRefInf/Ref` texts of the `Strd` nodes. -/
def xmlDetails (td? : Option TxDtls) : String :=
  match td? with
  | none => ""
  | some td =>
    match td.rmtInf with
    | none => ""
    | some rmt =>
      let ustrdTexts := rmt.ustrd.filterMap (fun t? =>
        match t? with
        | some t => if t = "" then none else some t
        | none => none)
      let d1 := if rmt.ustrd = [] then "" else String.intercalate " " ustrdTexts
      if d1 ≠ "" then d1
      else
        let refs := rmt.strd.filterMap (fun st =>
          match st.cdtrRef with
          | some (some t) => if t = "" then none else some t
          | _ => none)
        if refs = [] then d1 else String.intercalate " " refs

/-- Model of `XMLBankStatementParser._process_entry` (src/parsing.py:205-298).
Returns `none` where the Python code returns `None` (entry skipped). -/
def xmlProcessEntry (ntry : Ntry) : Option Txn :=
  match ntry.bookgDtDt with
  | none => none                          -- line 208-209
  | some date =>
    match ntry.amt with
    | none => none                        -- line 214-215
    | some amtText =>
      match amtText with
      | none => none                      -- line 217-218
      | some amtStr =>
        match pyFloat amtStr.data with
        | none => none                    -- line 220-221 (ValueError)
        | some val =>
          match ntry.cdtDbtInd with
          | none => none                  -- line 225-226
          | some indText =>
            -- lines 228-234: uppercase a truthy indicator, drop `DBIT`
            let indicator : Option String :=
              match indText with
              | none => none
              | some s => some (if s = "" then s else pyUpper s)
            if indicator = some "DBIT" then none
            else
              let amount := |val|         -- line 236
              let details := xmlDetails ntry.txDtls
              -- lines 285-290: iban fallback from details via split_details
              let iban0 := xmlIbanRaw ntry.txDtls
              let ibanIsFalsy := iban0 = none ∨ iban0 = some ""
              let iban :=
                if ibanIsFalsy ∧ details ≠ "" then
                  let found := (split_details details).2.1
                  if found ≠ "" then some found else iban0
                else iban0
              some { date := date
                     payer := pyOrStr (xmlPayerRaw ntry.txDtls) "Unknown"
                     details := details
                     amount := amount
                     iban := iban }

/-- Model of `XMLBankStatementParser.parse` (src/parsing.py:174-203) from the
list of `Ntry` elements found in the document: per-entry failures are
skipped; a document with no `Ntry` elements at all (and hence no entries)
raises a fatal `StatementParsingError`. -/
def xmlParse (ntrys : List Ntry) : Except PyErr (List Txn) :=
  let entries := ntrys.filterMap xmlProcessEntry
  if entries = [] ∧ ntrys = [] then
    .error (.statementParsingError "No entries found in XML. Namespace might be mismatched.")
  else .ok entries

/-!
Model of `SmartPDFParser` (src/parsing.py:300-491).  The pypdf text
extraction is I/O; the model starts from the extracted text stream
(`full_stream`), which is where all the parsing logic lives.
-/

/-- One match of the amount regex
`(?<![\d.,])([+−-]?)(\d[\d\s]*)[.,](\d{2})(?![\d.,])` (src/parsing.py:373):
the matched length and the three capture groups.  As with `IBAN_RE`, the
greedy run `[\d\s]*` can only ever stop at a character it cannot consume, and
`[.,]` matches none of the characters `[\d\s]` could have given back, so
backtracking never helps: the unique candidate match takes the maximal run. -/
structure AmtMatch where
  len : Nat
  sign : List Char     -- group 1: `[]`, `['+']`, `['−']` or `['-']`
  intRaw : List Char   -- group 2: first digit plus the `[\d\s]*` run
  dec : List Char      -- group 3: the two decimal digits
deriving DecidableEq

/-- Attempt to match the amount regex anchored at the head of `l`
(the `(?<![\d.,])` lookbehind is checked by the caller). -/
def matchAmtAt (l : List Char) : Option AmtMatch :=
  let (sgn, r1) : List Char × List Char :=
    match l with
    | c :: r => if c = '+' ∨ c = '−' ∨ c = '-' then ([c], r) else ([], l)
    | [] => ([], l)
  match r1 with
  | d :: r2 =>
    if isPyDigit d then
      let run := r2.takeWhile (fun c => isPyDigit c || isPySpace c)
      let r3 := r2.dropWhile (fun c => isPyDigit c || isPySpace c)
      match r3 with
      | sep :: d1 :: d2 :: r4 =>
        let lookAheadOk : Bool :=
          match r4 with
          | c :: _ => !(isPyDigit c || c == '.' || c == ',')
          | [] => true
        if (sep = '.' ∨ sep = ',') ∧ isPyDigit d1 ∧ isPyDigit d2 ∧ lookAheadOk then
          some ⟨sgn.length + 1 + run.length + 3, sgn, d :: run, [d1, d2]⟩
        else none
      | _ => none
    else none
  | [] => none

/-- Scan for the leftmost amount match (`amt_pattern.search`), enforcing the
`(?<![\d.,])` lookbehind; `prev` is the character before the scan position. -/
def amtSearchAux : List Char → Nat → Option Char → Option (Nat × AmtMatch)
  | [], _, _ => none
  | c :: rest, i, prev =>
    let okBehind : Bool :=
      match prev with
      | none => true
      | some p => !(isPyDigit p || p == '.' || p == ',')
    match if okBehind then matchAmtAt (c :: rest) else none with
    | some m => some (i, m)
    | none => amtSearchAux rest (i + 1) (some c)

/-- Model of `amt_pattern.search(text)`: position and groups of the first
match. -/
def amtSearch (l : List Char) : Option (Nat × AmtMatch) := amtSearchAux l 0 none

/-- Match of the date anchor regex `(?<!\d)(\d{4}-\d{2}-\d{2})(?!\d)`
(src/parsing.py:327) anchored at the head of `l` (lookbehind checked by the
caller). -/
def matchDateAt (l : List Char) : Bool :=
  match l.take 10 with
  | [y1, y2, y3, y4, s1, m1, m2, s2, d1, d2] =>
    isPyDigit y1 && isPyDigit y2 && isPyDigit y3 && isPyDigit y4 &&
    s1 == '-' && isPyDigit m1 && isPyDigit m2 && s2 == '-' &&
    isPyDigit d1 && isPyDigit d2 &&
    (match l.drop 10 with
     | c :: _ => !isPyDigit c
     | [] => true)
  | _ => false

/-- Model of `re.finditer` over the date anchor regex: the `(start, date)`
list of non-overlapping leftmost matches (scanning resumes at each match
end, as `finditer` does). -/
def dateAnchorsAux : Nat → List Char → Nat → Option Char → List (Nat × List Char)
  | 0, _, _, _ => []
  | _, [], _, _ => []
  | fuel + 1, c :: rest, i, prev =>
    let okBehind : Bool :=
      match prev with
      | none => true
      | some p => !isPyDigit p
    if okBehind && matchDateAt (c :: rest) then
      (i, (c :: rest).take 10) ::
        dateAnchorsAux fuel (rest.drop 9) (i + 10) ((c :: rest).take 10).getLast?
    else dateAnchorsAux fuel rest (i + 1) (some c)

/-- Model of `re.finditer(date regex, stream)` spans; the fuel
`stream.length` suffices because every step consumes at least one
character. -/
def dateAnchors (l : List Char) : List (Nat × List Char) :=
  dateAnchorsAux l.length l 0 none

/-- The `final_name` / `final_comment` computation of `_parse_block`
(src/parsing.py:437-483), given the amount span and the optional IBAN span. -/
def pdfNameComment (text : List Char) (amtStart amtEnd : Nat)
    (mIban : Option (Nat × Nat)) : List Char × List Char :=
  match mIban with
  | some (ibSt, ibEn) =>
    -- lines 440-468: name before the IBAN (minus the amount span),
    -- comment after it (minus the amount span)
    let pre0 := text.take ibSt
    let pre :=
      if amtStart < ibSt then
        (pre0.take amtStart) ++ ' ' :: (pre0.drop amtEnd)
      else pre0
    let name0 := collapseWS pre
    let post0 := text.drop ibEn
    let post :=
      if amtStart > ibEn then
        (post0.take (amtStart - ibEn)) ++ ' ' :: (post0.drop (amtEnd - ibEn))
      else post0
    let comment0 := collapseWS post
    -- lines 470-477: dialect fallback when the name sits after the IBAN
    if name0 = [] ∧ comment0 ≠ [] then
      let (n, _, c) := split_details_l comment0
      if n ≠ [] then (n, c) else (name0, comment0)
    else (name0, comment0)
  | none =>
    -- lines 479-483: no IBAN; mask the amount span, collapse, and
    -- split via the shared heuristic (`filter(None, ·.split())`
    -- drops nothing extra, so the join is collapseWS)
    let remaining := (text.take amtStart) ++ ' ' :: (text.drop amtEnd)
    let fullStr := collapseWS remaining
    let (n, _, c) := split_details_l fullStr
    (n, c)

/-- Model of `SmartPDFParser._parse_block` (src/parsing.py:361-491). -/
def pdfParseBlock (dateStr text : List Char) : Option Txn :=
  match amtSearch text with
  | none => none                                     -- line 377-378
  | some (amtStart, m) =>
    let amtEnd := amtStart + m.len
    -- line 384: integer_part.replace(' ', '').replace('\xa0', '')
    let integerPart := m.intRaw.filter (fun c => !(c == ' ' || c == Char.ofNat 0xA0))
    -- line 387: f"{sign}{integer_part}.{decimal_part}".replace('−', '-');
    -- '−' can only occur in the sign group ([\d\s] matches no '−')
    let signNorm := m.sign.map (fun c => if c = '−' then '-' else c)
    let floatStr := signNorm ++ integerPart ++ '.' :: m.dec
    match pyFloat floatStr with
    | none => none                                   -- line 390-391
    | some amount =>
      if amount < 0 then none                        -- line 393-394
      else
        let mIban := ibanSearch text                 -- line 399
        let iban : List Char :=
          match mIban with
          | some (st, en) => cleanIban ((text.take en).drop st)
          | none => []
        let (finalName, finalComment) := pdfNameComment text amtStart amtEnd mIban
        some { date := some ⟨dateStr⟩
               payer := if finalName = [] then "Statement Entry" else ⟨finalName⟩
               details := ⟨finalComment⟩
               amount := amount
               iban := some ⟨iban⟩ }

/-- Per-anchor block loop of `SmartPDFParser.parse` (src/parsing.py:338-357). -/
def pdfBlocks (stream : List Char) : List (Nat × List Char) → List Txn
  | [] => []
  | (st, d) :: rest =>
    let en := match rest with
      | (st2, _) :: _ => st2
      | [] => stream.length
    let rawBlock := (stream.take en).drop st
    let content := trimWS (rawBlock.drop d.length)
    match pdfParseBlock d content with
    | some t => t :: pdfBlocks stream rest
    | none => pdfBlocks stream rest

/-- Model of `SmartPDFParser.parse` (src/parsing.py:305-359) from the
extracted text stream. -/
def smartPdfParse (stream : String) : Except PyErr (List Txn) :=
  let anchors := dateAnchors stream.data
  if anchors = [] then
    .error (.statementParsingError "No dates found in PDF. Unknown format.")
  else .ok (pdfBlocks stream.data anchors)

/-!
Model of `ExcelBankStatementParser` (src/parsing.py:69-165).  A sheet is the
grid `pd.read_excel(filepath, header=None)` produces: a list of rows of
cells; a cell is `none` for an empty cell (pandas `NaN`, whose `str()` is
`"nan"`) or `some s` for a cell whose `str()` is `s`.

`COLUMN_MAP` (lines 75-80) maps only `payer`, `details`, `amount` and
`iban`; it has NO `date` key, so every evaluation of
`self.COLUMN_MAP['date']` (lines 91, 96 and 139) raises `KeyError: 'date'`.
-/

/-- A spreadsheet cell: `none` models pandas `NaN`. -/
def Cell : Type := Option String
deriving instance DecidableEq for Cell

/-- Python `str(cell)` for a cell. -/
def cellStr (c : Cell) : String :=
  match c with
  | none => "nan"
  | some s => s

/-- Python `str.strip()` on `String`. -/
def pyStrip (s : String) : String := ⟨trimWS s.data⟩

/-- The `COLUMN_MAP` dict literal (src/parsing.py:75-80).  Note the absence
of a `'date'` entry. -/
def COLUMN_MAP : List (String × String) :=
  [("payer", "Gavėjas/Mokėtojas"),
   ("details", "Paaiškinimai"),
   ("amount", "Apyvarta"),
   ("iban", "Sąskaita")]

/-- Python `self.COLUMN_MAP[key]`: raises `KeyError` when absent. -/
def columnMapGet (key : String) : Except PyErr String :=
  match COLUMN_MAP.find? (fun p => p.1 == key) with
  | some p => .ok p.2
  | none => .error (.keyError key)

/-- One cell comparison of the header scan (line 91):
`str(cell).strip() == self.COLUMN_MAP['date']` — the dict lookup is
evaluated (and raises) before the comparison. -/
def headerCellMatches (c : Cell) : Except PyErr Bool := do
  let target ← columnMapGet "date"
  pure (pyStrip (cellStr c) == target)

/-- Python `any(...)` over one row's cells (line 91), short-circuiting. -/
def rowAnyDateHeader : List Cell → Except PyErr Bool
  | [] => pure false
  | c :: rest => do
    if (← headerCellMatches c) then pure true else rowAnyDateHeader rest

/-- The header-row scan (lines 89-96): first row index whose cells contain
the date header; raises a `StatementParsingError` whose message is built
with another `COLUMN_MAP['date']` lookup (line 96) when no row matches. -/
def findHeaderRow : List (List Cell) → Nat → Except PyErr Nat
  | [], _ => do
    let target ← columnMapGet "date"
    .error (.statementParsingError
      ("Could not find the header row looking for " ++ target ++ "."))
  | row :: rest, i => do
    if (← rowAnyDateHeader row) then pure i else findHeaderRow rest (i + 1)

/-- Model of `_validate_columns` (src/parsing.py:115-119). -/
def validateColumns (columns : List String) : Except PyErr Unit :=
  let required := COLUMN_MAP.map Prod.snd
  let missing := required.filter (fun col => !columns.contains col)
  if missing ≠ [] then
    .error (.missingColumnsError
      ("Missing required columns: " ++ String.intercalate ", " missing))
  else .ok ()

/-- Python `row.get(col, '')` followed by `str(...)`: the cell under a
header name, as a string. -/
def rowGetStr (columns : List String) (row : List Cell) (col : String) : String :=
  match columns.findIdx? (fun c => c == col) with
  | some j => cellStr (row.getD j none)
  | none => ""

/-- Model of `_process_row` (src/parsing.py:121-165).  `Except` carries the
`KeyError: 'date'` raised at line 139 as soon as a row passes the amount
checks; `ok none` is a skipped row. -/
def excelProcessRow (columns : List String) (row : List Cell) :
    Except PyErr (Option Txn) := do
  let amountCol ← columnMapGet "amount"
  let amountStr := pyStrip (rowGetStr columns row amountCol)
  if amountStr = "" then return none
  -- line 129-131: strip '+', comma decimal separator, unicode minus
  let cleaned := ((amountStr.replace "+" "").replace "," ".").replace "−" "-"
  match pyFloat cleaned.data with
  | none => return none
  | some amount =>
    if amount < 0 then return none
    let dateCol ← columnMapGet "date"      -- line 139: KeyError: 'date'
    let payerCol ← columnMapGet "payer"
    let detailsCol ← columnMapGet "details"
    let date := pyStrip (rowGetStr columns row dateCol)
    let payer := pyStrip (rowGetStr columns row payerCol)
    let details := pyStrip (rowGetStr columns row detailsCol)
    let iban :=
      [("Sąskaita" : String), "Mokėtojo sąskaita", "IBAN"].foldl
        (fun acc col =>
          match acc with
          | some v => some v
          | none =>
            if columns.contains col then
              let val := pyStrip (rowGetStr columns row col)
              if 10 < val.length then some val else none
            else none)
        none
    if date = "" then return none
    return some { date := some date
                  payer := payer
                  details := details
                  amount := amount
                  iban := some (iban.getD "") }

/-- Model of `ExcelBankStatementParser.parse` (src/parsing.py:82-113) from
the cell grid. -/
def excelParse (sheet : List (List Cell)) : Except PyErr (List Txn) := do
  let i ← findHeaderRow sheet 0
  let columns := (sheet.getD i []).map (fun c => pyStrip (cellStr c))
  validateColumns columns
  let dataRows := sheet.drop (i + 1)
  dataRows.foldlM
    (fun acc row => do
      if row.all (fun c => c = none) then pure acc
      else
        match (← excelProcessRow columns row) with
        | some t => pure (acc ++ [t])
        | none => pure acc)
    []

/-!
Model of the `BankStatementParser` facade (src/parsing.py:497-534): the
post-extraction filter and the merchant-terminal predicate.
-/

/-- Does `needle` occur at the head of the list? (`str.startswith`). -/
def startsWithL : List Char → List Char → Bool
  | _, [] => true
  | [], _ :: _ => false
  | h :: hs, n :: ns => h == n && startsWithL hs ns

/-- Python `needle in hay` substring containment. -/
def containsSub (hay needle : List Char) : Bool :=
  match hay with
  | [] => startsWithL [] needle
  | _ :: rest => startsWithL hay needle || containsSub rest needle

/-- Model of `BankStatementParser.should_ignore_transaction`
(src/parsing.py:516-534). -/
def should_ignore_transaction (t : Txn) : Bool :=
  let details := t.details
  if details = "" then false
  else
    let du := (pyUpper details).data
    containsSub du "PREKYB. ID".data && containsSub du "TERM. SK.".data

/-- The facade's post-filter (src/parsing.py:514):
`[t for t in transactions if not self.should_ignore_transaction(t)]`. -/
def facadeFilter (transactions : List Txn) : List Txn :=
  transactions.filter (fun t => !should_ignore_transaction t)

/-!
Model of `row_key_from_values` (src/app.py:532-535): the transaction
fingerprint is `hashlib.sha1("|".join(fields).encode("utf-8")).hexdigest()[:12]`.
SHA-1 is implemented below over byte lists (bytes as `Nat < 256`),
following FIPS 180-4.
-/

/-- UTF-8 encoding of one code point (`str.encode("utf-8")`). -/
def utf8Bytes (c : Char) : List Nat :=
  let n := c.toNat
  if n < 0x80 then [n]
  else if n < 0x800 then
    [0xC0 ||| (n >>> 6), 0x80 ||| (n &&& 0x3F)]
  else if n < 0x10000 then
    [0xE0 ||| (n >>> 12), 0x80 ||| ((n >>> 6) &&& 0x3F), 0x80 ||| (n &&& 0x3F)]
  else
    [0xF0 ||| (n >>> 18), 0x80 ||| ((n >>> 12) &&& 0x3F),
     0x80 ||| ((n >>> 6) &&& 0x3F), 0x80 ||| (n &&& 0x3F)]

/-- UTF-8 encoding of a string. -/
def utf8Encode (s : String) : List Nat := s.data.flatMap utf8Bytes

/-- 32-bit left rotation. -/
def rotl32 (k x : Nat) : Nat := ((x <<< k) ||| (x >>> (32 - k))) % 4294967296

/-- SHA-1 message padding: append `0x80`, zero bytes to 56 mod 64, and the
64-bit big-endian bit length. -/
def sha1Pad (msg : List Nat) : List Nat :=
  let len := msg.length
  let bitLen := len * 8
  let padZeros := (119 - (len % 64)) % 64
  msg ++ 0x80 :: List.replicate padZeros 0 ++
    (List.range 8).map (fun i => (bitLen >>> (8 * (7 - i))) &&& 0xFF)

/-- Fuelled splitting of a list into chunks of `k + 1` elements. -/
def chunksOfAux (k : Nat) : Nat → List α → List (List α)
  | 0, _ => []
  | _, [] => []
  | fuel + 1, c :: rest => (c :: rest).take (k + 1) :: chunksOfAux k fuel (rest.drop k)

/-- Split a list into chunks of `k` elements (`k > 0`); the fuel `l.length`
suffices because every step consumes at least one element. -/
def chunksOf (k : Nat) (l : List α) : List (List α) :=
  match k with
  | 0 => []
  | k + 1 => chunksOfAux k l.length l

/-- Big-endian 32-bit words of a 64-byte chunk. -/
def chunkWords (chunk : List Nat) : List Nat :=
  (chunksOf 4 chunk).map (fun b =>
    match b with
    | [a, b1, c, d] => (((a <<< 8) ||| b1) <<< 8 ||| c) <<< 8 ||| d
    | _ => 0)

/-- Extend 16 words to 80 words: `w[i] = rotl1 (w[i-3] ^ w[i-8] ^ w[i-14] ^ w[i-16])`. -/
def sha1Extend (w : Array Nat) : Array Nat :=
  (List.range 64).foldl
    (fun w i =>
      let j := i + 16
      w.push (rotl32 1 ((w.getD (j - 3) 0) ^^^ (w.getD (j - 8) 0) ^^^
        (w.getD (j - 14) 0) ^^^ (w.getD (j - 16) 0))))
    w

/-- The 80 SHA-1 rounds over one chunk, from state `(h0, h1, h2, h3, h4)`. -/
def sha1Chunk (state : Nat × Nat × Nat × Nat × Nat) (chunk : List Nat) :
    Nat × Nat × Nat × Nat × Nat :=
  let (h0, h1, h2, h3, h4) := state
  let w := sha1Extend (chunkWords chunk).toArray
  let (a, b, c, d, e) :=
    (List.range 80).foldl
      (fun st i =>
        let (a, b, c, d, e) := st
        let (f, k) :=
          if i < 20 then ((b &&& c) ||| ((4294967295 ^^^ b) &&& d), 0x5A827999)
          else if i < 40 then (b ^^^ c ^^^ d, 0x6ED9EBA1)
          else if i < 60 then ((b &&& c) ||| (b &&& d) ||| (c &&& d), 0x8F1BBCDC)
          else (b ^^^ c ^^^ d, 0xCA62C1D6)
        let temp := (rotl32 5 a + f + e + k + w.getD i 0) % 4294967296
        (temp, a, rotl32 30 b, c, d))
      (h0, h1, h2, h3, h4)
  ((h0 + a) % 4294967296, (h1 + b) % 4294967296, (h2 + c) % 4294967296,
   (h3 + d) % 4294967296, (h4 + e) % 4294967296)

/-- Lowercase hex digits of `n` over `k` nibbles (big-endian). -/
def toHex (n k : Nat) : List Char :=
  (List.range k).map (fun i =>
    let d := (n >>> (4 * (k - 1 - i))) &&& 0xF
    if d < 10 then Char.ofNat (48 + d) else Char.ofNat (87 + d))

/-- SHA-1 digest of a byte list, as a 40-character lowercase hex string
(`hashlib.sha1(·).hexdigest()`). -/
def sha1Hex (msg : List Nat) : String :=
  let (h0, h1, h2, h3, h4) :=
    (chunksOf 64 (sha1Pad msg)).foldl sha1Chunk
      (0x67452301, 0xEFCDAB89, 0x98BADCFE, 0x10325476, 0xC3D2E1F0)
  ⟨toHex h0 8 ++ toHex h1 8 ++ toHex h2 8 ++ toHex h3 8 ++ toHex h4 8⟩

/-- Model of `row_key_from_values(date, price, iban, comment, name)`
(src/app.py:532-535): sha1 of the pipe-joined raw strings, truncated to 12
hex characters.  No rounding or normalisation of the price string occurs. -/
def row_key_from_values (date price iban comment name : String) : String :=
  let raw := String.intercalate "|" [date, price, iban, comment, name]
  ⟨(sha1Hex (utf8Encode raw)).data.take 12⟩

deriving instance DecidableEq for Except

/-- The claim's notion of the merchant-terminal signature: the details
contain both vendor marker substrings, compared case-insensitively
(via uppercasing, as the source does). -/
def hasBothMarkers (details : String) : Bool :=
  containsSub (pyUpper details).data "PREKYB. ID".data &&
  containsSub (pyUpper details).data "TERM. SK.".data

/-- An `Ntry` whose `BookgDt/Dt` element is present but empty
(ElementTree then reports its text as Python `None`), with a valid amount
and a credit indicator. -/
def entryEmptyDate : Ntry :=
  { bookgDtDt := some none
    amt := some (some "5.00")
    cdtDbtInd := some (some "CRDT")
    txDtls := none }

/-- An `Ntry` with a `DBIT` credit/debit indicator and a positive amount. -/
def entryDebit : Ntry :=
  { bookgDtDt := some (some "2025-01-01")
    amt := some (some "5.00")
    cdtDbtInd := some (some "DBIT")
    txDtls := none }

/-- An `Ntry` with a `CRDT` indicator and a negative-looking `Amt` text. -/
def entryCreditNeg : Ntry :=
  { bookgDtDt := some (some "2025-01-02")
    amt := some (some "-7.50")
    cdtDbtInd := some (some "CRDT")
    txDtls := none }

/-- A transaction whose details carry both merchant-terminal markers
(in lowercase, to exercise the case-insensitive comparison). -/
def txnTerminal : Txn :=
  { date := some "2025-01-01", payer := "Swedbank",
    details := "Swedbank IMONE prekyb. id 11 term. sk. 22",
    amount := 5, iban := some "" }

/-- A transaction whose details carry only one marker. -/
def txnOneMarker : Txn :=
  { date := some "2025-01-02", payer := "Jonas",
    details := "PREKYB. ID 11 only", amount := 7, iban := some "" }

/-- The record `_process_entry` builds for `entryEmptyDate`: note the
`None` date. -/
def txnEmptyDate : Txn :=
  { date := none, payer := "Unknown", details := "", amount := 5, iban := some "" }

/-- The record `_process_entry` builds for `entryCreditNeg`. -/
def txnCreditNeg : Txn :=
  { date := some "2025-01-02", payer := "Unknown", details := "",
    amount := mkRat 15 2, iban := some "" }

/-- The record `_parse_block` builds for the block `"+5.00"` (no name
anywhere): the payer placeholder is `"Statement Entry"`. -/
def txnStmtEntry : Txn :=
  { date := some "2025-11-13", payer := "Statement Entry", details := "",
    amount := 5, iban := some "" }

/-!
Theorems.
-/

set_option maxRecDepth 100000

/-- Any nonempty row makes the header scan evaluate `COLUMN_MAP['date']`,
which raises `KeyError: 'date'`. -/
theorem rowAnyDateHeader_err (c : Cell) (cs : List Cell) :
    rowAnyDateHeader (c :: cs) = .error (.keyError "date") := rfl

/-- The header-row scan always raises `KeyError: 'date'`: nonempty rows
raise it inside `any(...)`, and the no-header branch raises it while
formatting the error message (line 96). -/
theorem findHeaderRow_err (sheet : List (List Cell)) (i : Nat) :
    findHeaderRow sheet i = .error (.keyError "date") := by
  induction sheet generalizing i with
  | nil => rfl
  | cons row rest ih =>
    cases row with
    | nil => exact ih (i + 1)
    | cons c cs =>
      simp only [findHeaderRow, rowAnyDateHeader_err]
      rfl

/-- `ExcelBankStatementParser.parse` raises `KeyError: 'date'` on every
input sheet. -/
theorem excelParse_err (sheet : List (List Cell)) :
    excelParse sheet = .error (.keyError "date") := by
  simp only [excelParse, findHeaderRow_err]
  rfl

/-- C5: the claim says a spreadsheet whose header row lacks required columns
raises the typed `MissingColumnsError`.  The code cannot do this:
`COLUMN_MAP` (src/parsing.py:75-80) has no `'date'` key, so
`parse` raises `KeyError: 'date'` at line 91 (or 96) on every file — also on
a sheet whose header row lacks the payer/amount columns — before
`_validate_columns` can ever run.  The theorem evaluates the parser on such
a sheet and on all sheets. -/
theorem C5_excel_missing_columns_keyerror :
    excelParse [[some "Data", some "Suma"], [some "2025-01-01", some "5"]] =
      .error (.keyError "date") ∧
    (∀ msg, excelParse [[some "Data", some "Suma"], [some "2025-01-01", some "5"]] ≠
      .error (.missingColumnsError msg)) ∧
    (∀ sheet, excelParse sheet = .error (.keyError "date")) := by
  refine ⟨excelParse_err _, ?_, excelParse_err⟩
  intro msg h
  rw [excelParse_err] at h
  exact absurd (Except.error.inj h) (by simp)

/-- C7 counterexample: the fingerprint does not normalise the amount to two
decimals.  `row_key_from_values` (src/app.py:532-535) hashes the raw price
string, and the callers pass `str(price)` unrounded, so the keys for
`str(10.005) = "10.005"` and `str(10.0049999) = "10.0049999"` differ even
though both amounts round to `10.00`. -/
theorem C7_fingerprint_cex :
    row_key_from_values "2025-01-01" "10.005" "LT1" "c" "Jonas" ≠
      row_key_from_values "2025-01-01" "10.0049999" "LT1" "c" "Jonas" := by
  decide

/-- C7 (amended): the fingerprint is a deterministic content hash (SHA-1 of
the pipe-joined raw string fields, truncated to 12 hex characters) with NO
amount normalisation: it depends only on the joined string, and the three
amount strings `"10.005"`, `"10.0049999"` and `"10.01"` all give pairwise
different keys. -/
theorem C7_fingerprint_amended :
    (∀ d1 p1 i1 c1 n1 d2 p2 i2 c2 n2 : String,
      String.intercalate "|" [d1, p1, i1, c1, n1] =
        String.intercalate "|" [d2, p2, i2, c2, n2] →
      row_key_from_values d1 p1 i1 c1 n1 = row_key_from_values d2 p2 i2 c2 n2) ∧
    row_key_from_values "2025-01-01" "10.005" "LT1" "c" "Jonas" ≠
      row_key_from_values "2025-01-01" "10.01" "LT1" "c" "Jonas" ∧
    row_key_from_values "2025-01-01" "10.0049999" "LT1" "c" "Jonas" ≠
      row_key_from_values "2025-01-01" "10.01" "LT1" "c" "Jonas" := by
  refine ⟨?_, by decide, by decide⟩
  intro d1 p1 i1 c1 n1 d2 p2 i2 c2 n2 h
  unfold row_key_from_values
  rw [h]

/-- C7 witness: the determinism conjunct of the amended theorem applied at
equal field tuples. -/
theorem C7_fingerprint_witness :
    row_key_from_values "2025-01-01" "10.00" "LT1" "c" "Jonas" =
      row_key_from_values "2025-01-01" "10.00" "LT1" "c" "Jonas" :=
  C7_fingerprint_amended.1 "2025-01-01" "10.00" "LT1" "c" "Jonas"
    "2025-01-01" "10.00" "LT1" "c" "Jonas" rfl

/-- C2: parsing the given PDF text stream yields exactly one transaction:
the negative-amount block is dropped; the record has amount 98.00, iban
`LT237044060007980165`, and a payer containing both name fragments joined
across the line break. -/
theorem C2_pdf_stream_end_to_end :
    smartPdfParse "2025-11-13 +98.00 ALEŠKEVIČIENĖ\nGRETA LT237044060007980165 užsak.nr3279\n2025-11-01 -10.00 OUTGOING SKIPPED" =
      .ok [{ date := some "2025-11-13", payer := "ALEŠKEVIČIENĖ GRETA",
             details := "užsak.nr3279", amount := 98,
             iban := some "LT237044060007980165" }] ∧
    containsSub "ALEŠKEVIČIENĖ GRETA".data "ALEŠKEVIČIENĖ".data = true ∧
    containsSub "ALEŠKEVIČIENĖ GRETA".data "GRETA".data = true := by
  refine ⟨by decide, by decide, by decide⟩

/-- `should_ignore_transaction` tests exactly the case-insensitive
co-occurrence of the two markers (the empty-details guard changes nothing,
since no marker occurs in the empty string). -/
theorem should_ignore_eq_hasBothMarkers (t : Txn) :
    should_ignore_transaction t = hasBothMarkers t.details := by
  unfold should_ignore_transaction hasBothMarkers
  by_cases h : t.details = ""
  · rw [if_pos h, h]
    rfl
  · rw [if_neg h]

/-- C8: a transaction whose details contain both vendor marker substrings
(case-insensitively) is excluded from the facade's final output list; a
transaction with only one or neither marker passes the filter. -/
theorem C8_merchant_terminal_filter :
    ∀ (ts : List Txn) (t : Txn), t ∈ ts →
      (hasBothMarkers t.details = true → t ∉ facadeFilter ts) ∧
      (hasBothMarkers t.details = false → t ∈ facadeFilter ts) := by
  intro ts t ht
  constructor
  · intro hb hmem
    have h2 := (List.mem_filter.mp hmem).2
    rw [should_ignore_eq_hasBothMarkers, hb] at h2
    exact absurd h2 (by simp)
  · intro hb
    exact List.mem_filter.mpr ⟨ht, by rw [should_ignore_eq_hasBothMarkers, hb]; rfl⟩

/-- C8 witness: the filter applied to a concrete pair of transactions, one
with both markers (in lowercase) and one with a single marker. -/
theorem C8_merchant_terminal_witness :
    txnTerminal ∉ facadeFilter [txnTerminal, txnOneMarker] ∧
    txnOneMarker ∈ facadeFilter [txnTerminal, txnOneMarker] :=
  ⟨(C8_merchant_terminal_filter [txnTerminal, txnOneMarker] txnTerminal
      (by decide)).1 (by decide),
   (C8_merchant_terminal_filter [txnTerminal, txnOneMarker] txnOneMarker
      (by decide)).2 (by decide)⟩

/-- The `payer or "Unknown"` idiom never yields the empty string. -/
theorem pyOrStr_unknown_ne_empty (v : Option String) : pyOrStr v "Unknown" ≠ "" := by
  rcases v with _ | s
  · simp [pyOrStr]
  · by_cases h : s = "" <;> simp [pyOrStr, h]

/-- The `payer or "Unknown"` idiom substitutes the placeholder exactly on
falsy (missing or empty) payers. -/
theorem pyOrStr_unknown_of_falsy (v : Option String)
    (h : v = none ∨ v = some "") : pyOrStr v "Unknown" = "Unknown" := by
  rcases h with h | h <;> subst h <;> simp [pyOrStr]

/-- C6 part 1 helper: an entry whose indicator text is `DBIT` is dropped. -/
theorem xmlProcessEntry_dbit (e : Ntry)
    (h : e.cdtDbtInd = some (some "DBIT")) : xmlProcessEntry e = none := by
  obtain ⟨bd, amt, ind, td⟩ := e
  have h2 : ind = some (some "DBIT") := h
  subst h2
  unfold xmlProcessEntry
  rcases bd with _ | d
  · rfl
  rcases amt with _ | t?
  · rfl
  rcases t? with _ | t
  · rfl
  have hup : pyUpper "DBIT" = "DBIT" := rfl
  rcases hq : pyFloat t.data with _ | q <;> simp [hq, hup]

/-- C6 helper: the amount of every emitted XML record is the absolute value
of the parsed `Amt` text. -/
theorem xmlProcessEntry_amount (e : Ntry) (r : Txn)
    (h : xmlProcessEntry e = some r) :
    ∃ t q, e.amt = some (some t) ∧ pyFloat t.data = some q ∧ r.amount = |q| := by
  obtain ⟨bd, amt, ind, td⟩ := e
  unfold xmlProcessEntry at h
  dsimp only at h
  rcases bd with _ | d
  · exact absurd h (by simp)
  dsimp only at h
  rcases amt with _ | t?
  · exact absurd h (by simp)
  dsimp only at h
  rcases t? with _ | t
  · exact absurd h (by simp)
  dsimp only at h
  rcases hq : pyFloat t.data with _ | q
  · rw [hq] at h
    exact absurd h (by simp)
  · rw [hq] at h
    dsimp only at h
    rcases ind with _ | s?
    · exact absurd h (by simp)
    · dsimp only at h
      split at h
      · exact absurd h (by simp)
      · obtain rfl := Option.some.inj h
        exact ⟨t, q, rfl, hq, rfl⟩

/-- C6 helper: a successful `xmlParse` returns exactly the per-entry
filter-map of `_process_entry`. -/
theorem xmlParse_ok (ntrys : List Ntry) (out : List Txn)
    (h : xmlParse ntrys = .ok out) : out = ntrys.filterMap xmlProcessEntry := by
  simp only [xmlParse] at h
  split at h
  · exact absurd h (by simp)
  · exact (Except.ok.inj h).symm

/-- C6: no XML entry whose `CdtDbtInd` text equals `DBIT` contributes a
record to the extractor's output (the output of a successful parse is
exactly the filter-map of `_process_entry`, and `_process_entry` maps such
entries to `None`), and every emitted record's amount is the absolute value
of its parsed `Amt` text, regardless of sign. -/
theorem C6_xml_dbit_filter :
    (∀ e : Ntry, e.cdtDbtInd = some (some "DBIT") → xmlProcessEntry e = none) ∧
    (∀ (ntrys : List Ntry) (out : List Txn), xmlParse ntrys = .ok out →
      out = ntrys.filterMap xmlProcessEntry) ∧
    (∀ (e : Ntry) (r : Txn), xmlProcessEntry e = some r →
      ∃ t q, e.amt = some (some t) ∧ pyFloat t.data = some q ∧ r.amount = |q|) :=
  ⟨xmlProcessEntry_dbit, xmlParse_ok, xmlProcessEntry_amount⟩

/-- C6 witness: the theorem applied to a concrete `DBIT` entry (dropped)
and to a concrete credit entry with the unsigned-looking text `"-7.50"`
(emitted with amount `|−7.5| = 7.5`). -/
theorem C6_xml_dbit_witness :
    xmlProcessEntry entryDebit = none ∧
    (∃ t q, entryCreditNeg.amt = some (some t) ∧ pyFloat t.data = some q ∧
      txnCreditNeg.amount = |q|) :=
  ⟨C6_xml_dbit_filter.1 entryDebit rfl,
   C6_xml_dbit_filter.2.2 entryCreditNeg txnCreditNeg (by decide)⟩

/-- A `String.mk` of a nonempty character list is not the empty string. -/
theorem strMk_cons_ne_empty (c : Char) (cs : List Char) :
    (⟨c :: cs⟩ : String) ≠ "" := by
  intro h
  simpa using congrArg String.data h

/-- C10: the XML and PDF extractors never emit an empty payer: the XML
extractor emits `payer or "Unknown"` (so a missing or empty `Dbtr/Nm`
becomes `"Unknown"`), and the PDF extractor substitutes
`"Statement Entry"` when the block's extracted name is empty. -/
theorem C10_placeholder_payers :
    (∀ (e : Ntry) (r : Txn), xmlProcessEntry e = some r →
      r.payer ≠ "" ∧
      ((xmlPayerRaw e.txDtls = none ∨ xmlPayerRaw e.txDtls = some "") →
        r.payer = "Unknown")) ∧
    (∀ (d t : List Char) (r : Txn), pdfParseBlock d t = some r →
      r.payer ≠ "" ∧
      (∀ ai m, amtSearch t = some (ai, m) →
        (pdfNameComment t ai (ai + m.len) (ibanSearch t)).1 = [] →
        r.payer = "Statement Entry")) := by
  constructor
  · intro e r h
    obtain ⟨bd, amt, ind, td⟩ := e
    unfold xmlProcessEntry at h
    dsimp only at h
    rcases bd with _ | d
    · exact absurd h (by simp)
    dsimp only at h
    rcases amt with _ | t?
    · exact absurd h (by simp)
    dsimp only at h
    rcases t? with _ | t
    · exact absurd h (by simp)
    dsimp only at h
    rcases hq : pyFloat t.data with _ | q
    · rw [hq] at h
      exact absurd h (by simp)
    · rw [hq] at h
      dsimp only at h
      rcases ind with _ | s?
      · exact absurd h (by simp)
      · dsimp only at h
        split at h
        · exact absurd h (by simp)
        · obtain rfl := Option.some.inj h
          exact ⟨pyOrStr_unknown_ne_empty _, pyOrStr_unknown_of_falsy _⟩
  · intro d t r h
    unfold pdfParseBlock at h
    rcases ham : amtSearch t with _ | p
    · rw [ham] at h
      exact absurd h (by simp)
    · obtain ⟨ai, m⟩ := p
      rw [ham] at h
      dsimp only at h
      rcases hf : pyFloat ((m.sign.map (fun c => if c = '−' then '-' else c)) ++
          (m.intRaw.filter (fun c => !(c == ' ' || c == Char.ofNat 0xA0))) ++
          '.' :: m.dec) with _ | amount
      · rw [hf] at h
        exact absurd h (by simp)
      · rw [hf] at h
        dsimp only at h
        split at h
        · exact absurd h (by simp)
        · rcases hp : pdfNameComment t ai (ai + m.len) (ibanSearch t) with ⟨fn, fc⟩
          rw [hp] at h
          dsimp only at h
          obtain rfl := Option.some.inj h
          constructor
          · rcases fn with _ | ⟨c, cs⟩
            · simp
            · exact strMk_cons_ne_empty c cs
          · intro ai2 m2 ham2 hempty
            have h1 : ai = ai2 := congrArg Prod.fst (Option.some.inj ham2)
            have h2 : m = m2 := congrArg Prod.snd (Option.some.inj ham2)
            subst h1
            subst h2
            rw [hp] at hempty
            dsimp only at hempty
            subst hempty
            rfl

/-- C10 witness: the theorem applied to a concrete XML entry with no
payer-bearing nodes (payer `"Unknown"`) and a concrete PDF block with no
name (payer `"Statement Entry"`). -/
theorem C10_placeholder_witness :
    txnEmptyDate.payer = "Unknown" ∧ txnEmptyDate.payer ≠ "" ∧
    txnStmtEntry.payer = "Statement Entry" ∧ txnStmtEntry.payer ≠ "" :=
  have hx := C10_placeholder_payers.1 entryEmptyDate txnEmptyDate (by decide)
  have hp := C10_placeholder_payers.2 "2025-11-13".data "+5.00".data
    txnStmtEntry (by decide)
  ⟨hx.2 (Or.inr rfl), hx.1,
   hp.2 0 ⟨5, ['+'], ['5'], ['0', '0']⟩ (by decide) (by decide), hp.1⟩

/-- Every block record carries a non-negative amount (the debit filter at
line 393) and the anchoring date string. -/
theorem pdfParseBlock_props (d t : List Char) (r : Txn)
    (h : pdfParseBlock d t = some r) : 0 ≤ r.amount ∧ r.date = some ⟨d⟩ := by
  unfold pdfParseBlock at h
  rcases ham : amtSearch t with _ | p
  · rw [ham] at h
    exact absurd h (by simp)
  · obtain ⟨ai, m⟩ := p
    rw [ham] at h
    dsimp only at h
    rcases hf : pyFloat ((m.sign.map (fun c => if c = '−' then '-' else c)) ++
        (m.intRaw.filter (fun c => !(c == ' ' || c == Char.ofNat 0xA0))) ++
        '.' :: m.dec) with _ | amount
    · rw [hf] at h
      exact absurd h (by simp)
    · rw [hf] at h
      dsimp only at h
      split at h
      · exact absurd h (by simp)
      · rcases hp : pdfNameComment t ai (ai + m.len) (ibanSearch t) with ⟨fn, fc⟩
        rw [hp] at h
        dsimp only at h
        obtain rfl := Option.some.inj h
        rename_i hlt
        exact ⟨not_lt.mp hlt, rfl⟩

/-- Every date anchor's captured date string is nonempty (it is a 10
character match of the date regex). -/
theorem dateAnchorsAux_snd_ne (fuel : Nat) :
    ∀ (l : List Char) (i : Nat) (prev : Option Char),
      ∀ p ∈ dateAnchorsAux fuel l i prev, p.2 ≠ [] := by
  induction fuel with
  | zero =>
    intro l i prev p hp
    simp [dateAnchorsAux] at hp
  | succ fuel ih =>
    intro l i prev p hp
    cases l with
    | nil => simp [dateAnchorsAux] at hp
    | cons c rest =>
      rw [dateAnchorsAux.eq_def] at hp
      dsimp only at hp
      split at hp
      · rcases List.mem_cons.mp hp with rfl | hmem
        · simp
        · exact ih _ _ _ p hmem
      · exact ih _ _ _ p hp

/-- Every record emitted by the per-anchor block loop has a non-negative
amount and a non-null, nonempty date, provided every anchor's date string
is nonempty. -/
theorem pdfBlocks_props (stream : List Char) (anchors : List (Nat × List Char))
    (hA : ∀ p ∈ anchors, p.2 ≠ []) :
    ∀ r ∈ pdfBlocks stream anchors,
      0 ≤ r.amount ∧ r.date ≠ none ∧ r.date ≠ some "" := by
  induction anchors with
  | nil =>
    intro r hr
    simp [pdfBlocks] at hr
  | cons a rest ih =>
    obtain ⟨st, dd⟩ := a
    intro r hr
    rw [pdfBlocks.eq_def] at hr
    dsimp only at hr
    have hdd : dd ≠ [] := hA (st, dd) (List.mem_cons_self _ _)
    split at hr
    · rcases List.mem_cons.mp hr with rfl | hmem
      · rename_i tx heq
        obtain ⟨ham, hdate⟩ := pdfParseBlock_props _ _ _ heq
        refine ⟨ham, ?_, ?_⟩
        · rw [hdate]
          simp
        · rw [hdate]
          intro hc
          exact hdd (by simpa using congrArg String.data (Option.some.inj hc))
      · exact ih (fun p hp => hA p (List.mem_cons_of_mem _ hp)) r hmem
    · exact ih (fun p hp => hA p (List.mem_cons_of_mem _ hp)) r hr

/-- PDF parse-level invariant: every record of a successful parse has a
non-negative amount and a non-null, nonempty date. -/
theorem smartPdfParse_props (stream : String) (ts : List Txn) (r : Txn)
    (h : smartPdfParse stream = .ok ts) (hr : r ∈ ts) :
    0 ≤ r.amount ∧ r.date ≠ none ∧ r.date ≠ some "" := by
  unfold smartPdfParse at h
  dsimp only at h
  split at h
  · exact absurd h (by simp)
  · obtain rfl := Except.ok.inj h
    exact pdfBlocks_props _ _ (dateAnchorsAux_snd_ne _ _ _ _) r hr

/-- XML per-entry invariant: the amount is non-negative, and the date is
exactly the text of the `BookgDt/Dt` element (possibly `None`): entries
without the element are dropped, but an empty element's `None` text is
emitted as-is. -/
theorem xmlProcessEntry_date (e : Ntry) (r : Txn) (h : xmlProcessEntry e = some r) :
    0 ≤ r.amount ∧ e.bookgDtDt = some r.date := by
  obtain ⟨bd, amt, ind, td⟩ := e
  unfold xmlProcessEntry at h
  dsimp only at h
  rcases bd with _ | d
  · exact absurd h (by simp)
  dsimp only at h
  rcases amt with _ | t?
  · exact absurd h (by simp)
  dsimp only at h
  rcases t? with _ | t
  · exact absurd h (by simp)
  dsimp only at h
  rcases hq : pyFloat t.data with _ | q
  · rw [hq] at h
    exact absurd h (by simp)
  · rw [hq] at h
    dsimp only at h
    rcases ind with _ | s?
    · exact absurd h (by simp)
    · dsimp only at h
      split at h
      · exact absurd h (by simp)
      · obtain rfl := Option.some.inj h
        exact ⟨abs_nonneg q, rfl⟩

/-- C1 counterexample: an XML document parses successfully while emitting a
record whose date is null: the `BookgDt/Dt` element of `entryEmptyDate` is
present but empty, so its text (`None`) is emitted verbatim instead of the
entry being dropped. -/
theorem C1_null_date_cex :
    xmlParse [entryEmptyDate] = .ok [txnEmptyDate] ∧ txnEmptyDate.date = none :=
  ⟨by decide, rfl⟩

/-- C1 (amended): every record emitted by any extractor has `amount ≥ 0`;
the PDF extractor's records always carry the non-null, nonempty anchoring
date; the XML extractor drops only entries whose `BookgDt/Dt` element is
missing and otherwise emits the element's text verbatim — which may be
null/empty when the element is present but empty; the spreadsheet extractor
raises `KeyError: 'date'` on every file and hence emits nothing at all. -/
theorem C1_amended_invariants :
    (∀ (stream : String) (ts : List Txn) (r : Txn), smartPdfParse stream = .ok ts →
      r ∈ ts → 0 ≤ r.amount ∧ r.date ≠ none ∧ r.date ≠ some "") ∧
    (∀ (e : Ntry) (r : Txn), xmlProcessEntry e = some r →
      0 ≤ r.amount ∧ e.bookgDtDt = some r.date) ∧
    (∀ sheet : List (List Cell), excelParse sheet = .error (.keyError "date")) :=
  ⟨smartPdfParse_props, xmlProcessEntry_date, excelParse_err⟩

/-- C1 witness: the amended invariants applied to a concrete PDF stream and
a concrete XML entry. -/
theorem C1_amended_witness :
    (0 ≤ txnStmtEntry.amount ∧ txnStmtEntry.date ≠ none ∧ txnStmtEntry.date ≠ some "") ∧
    (0 ≤ txnCreditNeg.amount ∧ entryCreditNeg.bookgDtDt = some txnCreditNeg.date) :=
  ⟨C1_amended_invariants.1 "2025-11-13 +5.00" [txnStmtEntry] txnStmtEntry
      (by decide) (by decide),
   C1_amended_invariants.2.1 entryCreditNeg txnCreditNeg (by decide)⟩

/-- A digit character is not a letter of the model. -/
theorem isAlphaPy_false_of_digit (c : Char) (h : isPyDigit c = true) :
    isAlphaPy c = false := by
  simp only [isPyDigit, Bool.and_eq_true, decide_eq_true_eq] at h
  simp only [isAlphaPy, ltLetterVals, List.contains, List.elem_eq_mem,
    Bool.or_eq_false_iff, Bool.and_eq_false_iff, decide_eq_false_iff_not,
    List.mem_cons, List.not_mem_nil, or_false]
  omega

/-- A whitespace character is not a letter of the model. -/
theorem isAlphaPy_false_of_space (c : Char) (h : isPySpace c = true) :
    isAlphaPy c = false := by
  simp only [isPySpace, Bool.or_eq_true, beq_iff_eq] at h
  simp only [isAlphaPy, ltLetterVals, List.contains, List.elem_eq_mem,
    Bool.or_eq_false_iff, Bool.and_eq_false_iff, decide_eq_false_iff_not,
    List.mem_cons, List.not_mem_nil, or_false]
  omega

/-- A digit character is not whitespace. -/
theorem isPySpace_false_of_digit (c : Char) (h : isPyDigit c = true) :
    isPySpace c = false := by
  simp only [isPyDigit, Bool.and_eq_true, decide_eq_true_eq] at h
  simp only [isPySpace, Bool.or_eq_false_iff, beq_eq_false_iff_ne]
  omega

/-- A whitespace character is not a digit. -/
theorem isPyDigit_false_of_space (c : Char) (h : isPySpace c = true) :
    isPyDigit c = false := by
  simp only [isPySpace, Bool.or_eq_true, beq_iff_eq] at h
  simp only [isPyDigit, Bool.and_eq_false_iff, decide_eq_false_iff_not]
  omega

/-- C4 counterexample: on an input with leading whitespace and no IBAN, the
comment is NOT "everything after the first two tokens": slicing the
original string by the collapsed name's length (src/parsing.py:55)
misaligns, and `split_details("  Petraitis Ona")` returns the garbage
comment `"na"` where the claim requires `""`. -/
theorem C4_no_iban_cex :
    split_details "  Petraitis Ona" = ("Petraitis Ona", "", "na") ∧
    ibanSearch "  Petraitis Ona".data = none ∧
    ("na" : String) ≠ "" :=
  ⟨by decide, by decide, by decide⟩

/-- C4 (amended): when no IBAN pattern occurs, the name is the first two
whitespace-delimited tokens joined by a single space and the IBAN is empty,
but the comment is the ORIGINAL string with its first `len(name)` characters
removed and then whitespace-stripped — which equals "everything after those
two tokens" only when the name occurs verbatim as a prefix of the input
(e.g. single-spaced input without leading whitespace).  In particular
`split_details("Petraitis Ona") = ("Petraitis Ona", "", "")` and
`split_details("") = ("", "", "")`. -/
theorem C4_no_iban_amended :
    (∀ s : List Char, ibanSearch s = none →
      split_details_l s = (unwords ((words s).take 2), [],
        trimWS (s.drop (unwords ((words s).take 2)).length))) ∧
    split_details "Petraitis Ona" = ("Petraitis Ona", "", "") ∧
    split_details "" = ("", "", "") := by
  refine ⟨?_, by decide, by decide⟩
  intro s h
  by_cases hs : s = []
  · subst hs
    rfl
  · unfold split_details_l
    rw [if_neg hs, h]
    rcases hw : words s with _ | ⟨p1, ps⟩
    · rfl
    · rcases ps with _ | ⟨p2, ps2⟩ <;> rfl

/-- C4 witness: the amended equation applied to the misaligning input. -/
theorem C4_no_iban_witness :
    split_details_l "  Petraitis Ona".data =
      (unwords ((words "  Petraitis Ona".data).take 2), [],
       trimWS ("  Petraitis Ona".data.drop
         (unwords ((words "  Petraitis Ona".data).take 2)).length)) :=
  C4_no_iban_amended.1 "  Petraitis Ona".data (by decide)

/-- `dropWhile` is the identity when the head does not satisfy `p`. -/
theorem dropWhile_eq_self_of_head (p : Char → Bool) (l : List Char)
    (h : ∀ c, l.head? = some c → p c = false) : l.dropWhile p = l := by
  cases l with
  | nil => rfl
  | cons c cs =>
    rw [List.dropWhile_cons, if_neg]
    simp [h c rfl]

/-- `strip` is the identity when neither end satisfies `p`. -/
theorem trimBy_eq_self (p : Char → Bool) (l : List Char)
    (h1 : ∀ c, l.head? = some c → p c = false)
    (h2 : ∀ c, l.getLast? = some c → p c = false) : trimBy p l = l := by
  unfold trimBy
  rw [dropWhile_eq_self_of_head p l h1]
  rw [dropWhile_eq_self_of_head p l.reverse
    (fun c hc => h2 c (by rwa [List.head?_reverse] at hc))]
  exact List.reverse_reverse l

/-- Splitting a `ws-then-digit` head off a list: taking
`|takeWhile| + 1 + k` characters takes the whitespace run, the digit, and
`k` more characters of the remainder. -/
theorem take_ws_digit_block (rest : List Char) (k : Nat) (d : Char)
    (rest2 : List Char) (hdw : rest.dropWhile isPySpace = d :: rest2) :
    rest.take ((rest.takeWhile isPySpace).length + 1 + k) =
      rest.takeWhile isPySpace ++ d :: rest2.take k := by
  have hsplit : rest = rest.takeWhile isPySpace ++ d :: rest2 := by
    conv_lhs => rw [← List.takeWhile_append_dropWhile isPySpace rest, hdw]
  set ws := rest.takeWhile isPySpace with hws
  rw [show ws.length + 1 + k = ws.length + (k + 1) from by omega]
  conv_lhs => rw [hsplit]
  rw [List.take_append, List.take_succ_cons]

/-- Character-class and last-element properties of a
`whitespace ++ digit :: block` segment. -/
theorem ws_digit_block_props (ws : List Char)
    (hws : ∀ c ∈ ws, isPySpace c = true) (d : Char) (hd : isPyDigit d = true)
    (X : List Char)
    (hX : ∀ c ∈ X, (isPySpace c || isPyDigit c) = true)
    (hXlast : X = [] ∨ ∃ dl, X.getLast? = some dl ∧ isPyDigit dl = true) :
    (∀ c ∈ ws ++ d :: X, (isPySpace c || isPyDigit c) = true) ∧
    ∃ dl, (ws ++ d :: X).getLast? = some dl ∧ isPyDigit dl = true := by
  constructor
  · intro c hc
    rcases List.mem_append.mp hc with hc | hc
    · simp [hws c hc]
    · rcases List.mem_cons.mp hc with rfl | hc
      · simp [hd]
      · exact hX c hc
  · rw [List.getLast?_append_of_ne_nil _ (by simp : d :: X ≠ [])]
    rcases hXlast with rfl | ⟨dl, hdl, hdig⟩
    · exact ⟨d, rfl, hd⟩
    · have hXne : X ≠ [] := by
        intro h0
        rw [h0] at hdl
        simp at hdl
      rw [show d :: X = [d] ++ X from rfl,
        List.getLast?_append_of_ne_nil _ hXne]
      exact ⟨dl, hdl, hdig⟩

/-- Specification of the greedy `(?:\s*\d){0..fuel}` consumer: the consumed
region is whitespace/digit characters, it is empty exactly when no group
matched, and it ends with a digit otherwise. -/
theorem wsDigitGroups_spec (fuel : Nat) :
    ∀ (l : List Char) (g len : Nat), wsDigitGroups l fuel = (g, len) →
      (∀ c ∈ l.take len, (isPySpace c || isPyDigit c) = true) ∧
      (g = 0 → len = 0) ∧
      (0 < g → ∃ dl, (l.take len).getLast? = some dl ∧ isPyDigit dl = true) := by
  induction fuel with
  | zero =>
    intro l g len h
    rw [wsDigitGroups] at h
    obtain ⟨rfl, rfl⟩ : 0 = g ∧ 0 = len := Prod.mk.inj h
    simp
  | succ fuel ih =>
    intro l g len h
    rw [wsDigitGroups] at h
    rcases hdw : l.dropWhile isPySpace with _ | ⟨d, rest2⟩
    · rw [hdw] at h
      dsimp only at h
      obtain ⟨rfl, rfl⟩ : 0 = g ∧ 0 = len := Prod.mk.inj h
      simp
    · rw [hdw] at h
      dsimp only at h
      by_cases hd : isPyDigit d = true
      · rw [if_pos hd] at h
        rcases hrec : wsDigitGroups rest2 fuel with ⟨g2, len2⟩
        rw [hrec] at h
        dsimp only at h
        obtain ⟨hg, hlen⟩ : g2 + 1 = g ∧ (l.takeWhile isPySpace).length + 1 + len2 = len :=
          Prod.mk.inj h
        subst hg
        subst hlen
        obtain ⟨ihc, ihz, ihl⟩ := ih rest2 g2 len2 hrec
        rw [take_ws_digit_block l len2 d rest2 hdw]
        have hws : ∀ c ∈ l.takeWhile isPySpace, isPySpace c = true :=
          fun c hc => List.mem_takeWhile_imp hc
        have hXlast : rest2.take len2 = [] ∨
            ∃ dl, (rest2.take len2).getLast? = some dl ∧ isPyDigit dl = true := by
          rcases Nat.eq_zero_or_pos g2 with hg2 | hg2
          · left
            rw [ihz hg2]
            rfl
          · right
            exact ihl hg2
        obtain ⟨hall, hlast⟩ :=
          ws_digit_block_props (l.takeWhile isPySpace) hws d hd
            (rest2.take len2) ihc hXlast
        exact ⟨hall, fun hc => by omega, fun _ => hlast⟩
      · rw [if_neg hd] at h
        obtain ⟨rfl, rfl⟩ : 0 = g ∧ 0 = len := Prod.mk.inj h
        simp

/-- Structure of an anchored `IBAN_RE` match: the matched span is an
`L`/`l` then `T`/`t` followed by a whitespace/digit block ending in a
digit. -/
theorem matchIbanAt_spec (l : List Char) (len : Nat) (h : matchIbanAt l = some len) :
    ∃ c1 c2 body, l.take len = c1 :: c2 :: body ∧
      (c1 = 'L' ∨ c1 = 'l') ∧ (c2 = 'T' ∨ c2 = 't') ∧
      (∀ c ∈ body, (isPySpace c || isPyDigit c) = true) ∧
      ∃ dl, body.getLast? = some dl ∧ isPyDigit dl = true := by
  unfold matchIbanAt at h
  rcases l with _ | ⟨c1, _ | ⟨c2, rest⟩⟩
  · exact absurd h (by simp)
  · exact absurd h (by simp)
  · dsimp only at h
    split at h
    · rename_i hlt
      rcases hdw : rest.dropWhile isPySpace with _ | ⟨d, rest2⟩
      · rw [hdw] at h
        exact absurd h (by simp)
      · rw [hdw] at h
        dsimp only at h
        by_cases hd : isPyDigit d = true
        · rw [if_pos hd] at h
          rcases hgl : wsDigitGroups rest2 19 with ⟨g, glen⟩
          rw [hgl] at h
          dsimp only at h
          split at h
          · rename_i hg15
            obtain rfl := Option.some.inj h
            obtain ⟨ihc, _, ihl⟩ := wsDigitGroups_spec 19 rest2 g glen hgl
            have hws : ∀ c ∈ rest.takeWhile isPySpace, isPySpace c = true :=
              fun c hc => List.mem_takeWhile_imp hc
            have hXlast : rest2.take glen = [] ∨
                ∃ dl, (rest2.take glen).getLast? = some dl ∧ isPyDigit dl = true :=
              Or.inr (ihl (by omega))
            obtain ⟨hall, hlast⟩ :=
              ws_digit_block_props (rest.takeWhile isPySpace) hws d hd
                (rest2.take glen) ihc hXlast
            refine ⟨c1, c2, rest.takeWhile isPySpace ++ d :: rest2.take glen,
              ?_, hlt.1, hlt.2, hall, hlast⟩
            rw [show 2 + (rest.takeWhile isPySpace).length + 1 + glen =
              ((rest.takeWhile isPySpace).length + 1 + glen) + 1 + 1 from by omega]
            rw [List.take_succ_cons, List.take_succ_cons,
              take_ws_digit_block rest glen d rest2 hdw]
          · exact absurd h (by simp)
        · rw [if_neg hd] at h
          exact absurd h (by simp)
    · exact absurd h (by simp)

/-- The scanner relation: a hit of `ibanSearchAux` at absolute span
`(st, en)` is an anchored match of length `en - st` at offset `st - i`. -/
theorem ibanSearchAux_spec (l : List Char) :
    ∀ (i st en : Nat), ibanSearchAux l i = some (st, en) →
      i ≤ st ∧ matchIbanAt (l.drop (st - i)) = some (en - st) := by
  induction l with
  | nil =>
    intro i st en h
    simp [ibanSearchAux] at h
  | cons c rest ih =>
    intro i st en h
    rw [ibanSearchAux] at h
    rcases hm : matchIbanAt (c :: rest) with _ | len
    · rw [hm] at h
      dsimp only at h
      obtain ⟨h1, h2⟩ := ih (i + 1) st en h
      refine ⟨by omega, ?_⟩
      rw [show st - i = (st - (i + 1)) + 1 from by omega]
      simpa using h2
    · rw [hm] at h
      dsimp only at h
      obtain ⟨rfl, rfl⟩ : i = st ∧ i + len = en := Prod.mk.inj (Option.some.inj h)
      refine ⟨le_refl i, ?_⟩
      rw [Nat.sub_self, List.drop_zero, Nat.add_sub_cancel_left]
      exact hm

/-- `_clean_iban` on a matched IBAN span: uppercase `LT` prefix followed by
the digits of the span. -/
theorem cleanIban_of_match (c1 c2 : Char) (body : List Char)
    (h1 : c1 = 'L' ∨ c1 = 'l') (h2 : c2 = 'T' ∨ c2 = 't')
    (hb : ∀ c ∈ body, (isPySpace c || isPyDigit c) = true)
    (hl : ∃ dl, body.getLast? = some dl ∧ isPyDigit dl = true) :
    cleanIban (c1 :: c2 :: body) = 'L' :: 'T' :: body.filter isPyDigit := by
  obtain ⟨dl, hdl, hdig⟩ := hl
  have hbody_ne : body ≠ [] := by
    intro h0
    rw [h0] at hdl
    simp at hdl
  have hc1sp : isPySpace c1 = false := by rcases h1 with rfl | rfl <;> decide
  have hc1a : isAlphaPy c1 = true := by rcases h1 with rfl | rfl <;> decide
  have hc1d : isPyDigit c1 = false := by rcases h1 with rfl | rfl <;> decide
  have hc2a : isAlphaPy c2 = true := by rcases h2 with rfl | rfl <;> decide
  have hc2d : isPyDigit c2 = false := by rcases h2 with rfl | rfl <;> decide
  have htrim : trimWS (c1 :: c2 :: body) = c1 :: c2 :: body := by
    apply trimBy_eq_self
    · intro c hc
      obtain rfl : c1 = c := by simpa using hc
      exact hc1sp
    · intro c hc
      rw [show c1 :: c2 :: body = [c1, c2] ++ body from rfl,
        List.getLast?_append_of_ne_nil _ hbody_ne, hdl] at hc
      obtain rfl := Option.some.inj hc
      exact isPySpace_false_of_digit _ hdig
  have hfa : (c1 :: c2 :: body).filter isAlphaPy = [c1, c2] := by
    simp only [List.filter_cons, hc1a, hc2a, if_pos]
    rw [List.filter_eq_nil_iff.mpr]
    intro a ha
    rcases Bool.or_eq_true _ _ |>.mp (hb a ha) with hsp | hdg
    · simp [isAlphaPy_false_of_space a hsp]
    · simp [isAlphaPy_false_of_digit a hdg]
  have hfd : (c1 :: c2 :: body).filter isPyDigit = body.filter isPyDigit := by
    simp only [List.filter_cons, hc1d, hc2d]
    rfl
  have hup : [c1, c2].map upperChar = ['L', 'T'] := by
    rcases h1 with rfl | rfl <;> rcases h2 with rfl | rfl <;> decide
  unfold cleanIban
  rw [show trimWS (c1 :: c2 :: body) = c1 :: c2 :: body from htrim]
  rw [if_neg (by simp)]
  rw [hfa, hfd, hup]
  rfl

/-- C3 counterexample: the comment is stripped of punctuation/separators on
BOTH ends (`strip(" \t-,:;")`, src/parsing.py:49), not only of leading
ones: on an input whose post-IBAN text is `" abc;"`, the claim's
leading-trimmed comment would be `"abc;"` but the code returns `"abc"`. -/
theorem C3_comment_strip_cex :
    split_details "Jonas Jonaitis LT237044060007980165 abc;" =
      ("Jonas Jonaitis", "LT237044060007980165", "abc") ∧
    trimLeftBy isSepPunct " abc;".data = "abc;".data ∧
    ("abc" : String) ≠ "abc;" :=
  ⟨by decide, by decide, by decide⟩

/-- C3 (amended): whenever the IBAN pattern occurs, `split_details` returns
the whitespace-collapsed prefix before the first match as the name, the
match cleaned to `"LT"` followed by the span's digits (no internal spaces)
as the IBAN, and the suffix after the match with punctuation/separators
trimmed from BOTH ends (not just leading) as the comment. -/
theorem C3_iban_split_amended :
    (∀ (s : List Char) (st en : Nat), ibanSearch s = some (st, en) →
      split_details_l s =
        (collapseWS (s.take st),
         'L' :: 'T' :: (((s.take en).drop st).filter isPyDigit),
         trimBy isSepPunct (s.drop en))) ∧
    split_details "Jonas Jonaitis LT237044060007980165 užsak.123" =
      ("Jonas Jonaitis", "LT237044060007980165", "užsak.123") := by
  refine ⟨?_, by decide⟩
  intro s st en h
  have hs : s ≠ [] := by
    intro h0
    subst h0
    simp [ibanSearch, ibanSearchAux] at h
  obtain ⟨-, hmatch⟩ := ibanSearchAux_spec s 0 st en h
  rw [Nat.sub_zero] at hmatch
  obtain ⟨c1, c2, body, hshape, h1, h2, hbchars, hblast⟩ :=
    matchIbanAt_spec (s.drop st) (en - st) hmatch
  unfold split_details_l
  rw [if_neg hs, h]
  dsimp only
  have hslice : (s.take en).drop st = c1 :: c2 :: body := by
    rw [List.drop_take]
    exact hshape
  rw [hslice, cleanIban_of_match c1 c2 body h1 h2 hbchars hblast]
  have hc1d : isPyDigit c1 = false := by rcases h1 with rfl | rfl <;> decide
  have hc2d : isPyDigit c2 = false := by rcases h2 with rfl | rfl <;> decide
  simp only [List.filter_cons, hc1d, hc2d]
  rfl

/-- C3 witness: the amended equation applied to the spec's own example
(match span `(15, 35)`). -/
theorem C3_iban_split_witness :
    split_details_l "Jonas Jonaitis LT237044060007980165 užsak.123".data =
      (collapseWS ("Jonas Jonaitis LT237044060007980165 užsak.123".data.take 15),
       'L' :: 'T' ::
         ((("Jonas Jonaitis LT237044060007980165 užsak.123".data.take 35).drop 15).filter
           isPyDigit),
       trimBy isSepPunct ("Jonas Jonaitis LT237044060007980165 užsak.123".data.drop 35)) :=
  C3_iban_split_amended.1 _ 15 35 (by decide)

theorem wordsAux_wf (l : List Char) :
    ∀ acc, (∀ c ∈ acc, isPySpace c = false) →
      ∀ w ∈ wordsAux l acc, w ≠ [] ∧ ∀ c ∈ w, isPySpace c = false := by
  induction l with
  | nil =>
    intro acc hacc w hw
    rw [wordsAux] at hw
    split at hw
    · simp at hw
    · rename_i hne
      obtain rfl : w = acc.reverse := by simpa using hw
      refine ⟨by simpa using hne, fun c hc => hacc c (by simpa using hc)⟩
  | cons a rest ih =>
    intro acc hacc w hw
    rw [wordsAux] at hw
    split at hw
    · split at hw
      · exact ih [] (by simp) w hw
      · rename_i hne
        rcases List.mem_cons.mp hw with rfl | hw2
        · refine ⟨by simpa using hne, fun c hc => hacc c (by simpa using hc)⟩
        · exact ih [] (by simp) w hw2
    · rename_i hsp
      refine ih (a :: acc) ?_ w hw
      intro c hc
      rcases List.mem_cons.mp hc with rfl | hc2
      · simpa using hsp
      · exact hacc c hc2

theorem wordsAux_word_chunk (w : List Char) :
    ∀ (l acc : List Char), (∀ c ∈ w, isPySpace c = false) →
      wordsAux (w ++ l) acc = wordsAux l (w.reverse ++ acc) := by
  induction w with
  | nil => intro l acc _; simp
  | cons c w2 ih =>
    intro l acc hw
    have hc : isPySpace c = false := hw c (List.mem_cons_self _ _)
    rw [List.cons_append, wordsAux, if_neg (by simp [hc])]
    rw [ih l (c :: acc) (fun d hd => hw d (List.mem_cons_of_mem _ hd))]
    simp

theorem words_unwords (ws : List (List Char))
    (h : ∀ w ∈ ws, w ≠ [] ∧ ∀ c ∈ w, isPySpace c = false) :
    words (unwords ws) = ws := by
  induction ws with
  | nil => rfl
  | cons w ws2 ih =>
    obtain ⟨hwne, hwsp⟩ := h w (List.mem_cons_self _ _)
    cases ws2 with
    | nil =>
      show wordsAux (unwords [w]) [] = [w]
      rw [show unwords [w] = w ++ [] from by simp [unwords]]
      rw [wordsAux_word_chunk w [] [] hwsp]
      rw [wordsAux, if_neg (by simpa using hwne)]
      simp
    | cons w2 ws3 =>
      show wordsAux (unwords (w :: w2 :: ws3)) [] = _
      rw [show unwords (w :: w2 :: ws3) = w ++ ' ' :: unwords (w2 :: ws3) from rfl]
      rw [wordsAux_word_chunk w _ [] hwsp]
      rw [wordsAux, if_pos (by decide), if_neg (by simpa using hwne)]
      simp only [List.append_nil, List.reverse_reverse]
      rw [show wordsAux (unwords (w2 :: ws3)) [] = words (unwords (w2 :: ws3)) from rfl,
        ih (fun v hv => h v (List.mem_cons_of_mem _ hv))]

theorem collapseWS_idem (l : List Char) : collapseWS (collapseWS l) = collapseWS l := by
  unfold collapseWS
  rw [words_unwords (words l) (fun w hw => wordsAux_wf l [] (by simp) w hw)]

theorem mem_wordsAux_mem (l : List Char) :
    ∀ (acc w : List Char), w ∈ wordsAux l acc → ∀ c ∈ w, c ∈ l ∨ c ∈ acc := by
  induction l with
  | nil =>
    intro acc w hw c hc
    rw [wordsAux] at hw
    split at hw
    · simp at hw
    · obtain rfl : w = acc.reverse := by simpa using hw
      exact Or.inr (by simpa using hc)
  | cons a rest ih =>
    intro acc w hw c hc
    rw [wordsAux] at hw
    split at hw
    · split at hw
      · rcases ih [] w hw c hc with h | h
        · exact Or.inl (List.mem_cons_of_mem _ h)
        · simp at h
      · rcases List.mem_cons.mp hw with rfl | hw2
        · exact Or.inr (by simpa using hc)
        · rcases ih [] w hw2 c hc with h | h
          · exact Or.inl (List.mem_cons_of_mem _ h)
          · simp at h
    · rcases ih (a :: acc) w hw c hc with h | h
      · exact Or.inl (List.mem_cons_of_mem _ h)
      · rcases List.mem_cons.mp h with rfl | h2
        · exact Or.inl (List.mem_cons_self _ _)
        · exact Or.inr h2

theorem mem_unwords (ws : List (List Char)) (c : Char) (hc : c ∈ unwords ws) :
    (∃ w ∈ ws, c ∈ w) ∨ c = ' ' := by
  induction ws with
  | nil => simp [unwords] at hc
  | cons w ws2 ih =>
    cases ws2 with
    | nil => exact Or.inl ⟨w, List.mem_cons_self _ _, by simpa [unwords] using hc⟩
    | cons w2 ws3 =>
      rw [show unwords (w :: w2 :: ws3) = w ++ ' ' :: unwords (w2 :: ws3) from rfl] at hc
      rcases List.mem_append.mp hc with h | h
      · exact Or.inl ⟨w, List.mem_cons_self _ _, h⟩
      · rcases List.mem_cons.mp h with rfl | h2
        · exact Or.inr rfl
        · rcases ih h2 with ⟨v, hv, hcv⟩ | rfl
          · exact Or.inl ⟨v, List.mem_cons_of_mem _ hv, hcv⟩
          · exact Or.inr rfl

theorem mem_collapseWS (l : List Char) (c : Char) (hc : c ∈ collapseWS l) :
    c ∈ l ∨ c = ' ' := by
  rcases mem_unwords (words l) c hc with ⟨w, hw, hcw⟩ | rfl
  · rcases mem_wordsAux_mem l [] w hw c hcw with h | h
    · exact Or.inl h
    · simp at h
  · exact Or.inr rfl

theorem charOfNatToNat (c : Char) : Char.ofNat c.toNat = c := by
  rcases c with ⟨v, h⟩
  have hv : (UInt32.toNat v).isValidChar := h
  simp [Char.ofNat, Char.toNat, hv, Char.ofNatAux]
  rfl

theorem lowerChar_big (c : Char) (h : 1024 ≤ c.toNat) : lowerChar c = c := by
  unfold lowerChar
  rw [if_neg (by omega)]
  have hf : ltLowerTable.find? (fun p => p.1 == c.toNat) = none := by
    rw [List.find?_eq_none]
    intro p hp
    simp only [ltLowerTable, List.mem_cons, List.not_mem_nil, or_false] at hp
    rcases hp with rfl | rfl | rfl | rfl | rfl | rfl | rfl | rfl | rfl <;>
      · simp only [beq_iff_eq]
        omega
  rw [hf]
  rfl

theorem nfdChar_big (c : Char) (h : 1024 ≤ c.toNat) : nfdChar c = [c] := by
  unfold nfdChar
  have hf : nfdTable.find? (fun p => p.1 == c.toNat) = none := by
    rw [List.find?_eq_none]
    intro p hp
    simp only [nfdTable, List.mem_cons, List.not_mem_nil, or_false] at hp
    rcases hp with rfl | rfl | rfl | rfl | rfl | rfl | rfl | rfl | rfl | rfl | rfl |
      rfl | rfl | rfl | rfl | rfl | rfl | rfl <;>
      · simp only [beq_iff_eq]
        omega
  rw [hf]
  rfl

theorem isMn_big (c : Char) (h : 1024 ≤ c.toNat) : isMn c = false := by
  simp only [isMn, mnVals, List.contains, List.elem_eq_mem, decide_eq_false_iff_not,
    List.mem_cons, List.not_mem_nil, or_false]
  omega

set_option maxRecDepth 100000 in
theorem post_fixed_small :
    ∀ n, n < 1024 →
      ∀ d ∈ (nfdChar (lowerChar (Char.ofNat n))).filter (fun x => !isMn x),
        lowerChar d = d ∧ nfdChar d = [d] ∧ isMn d = false := by
  decide

theorem post_fixed (c : Char) :
    ∀ d ∈ (nfdChar (lowerChar c)).filter (fun x => !isMn x),
      lowerChar d = d ∧ nfdChar d = [d] ∧ isMn d = false := by
  by_cases hc : c.toNat < 1024
  · have := post_fixed_small c.toNat hc
    rwa [charOfNatToNat] at this
  · intro d hd
    rw [lowerChar_big c (by omega), nfdChar_big c (by omega)] at hd
    have : d = c := by
      rcases List.mem_filter.mp hd with ⟨hmem, _⟩
      simpa using hmem
    subst this
    exact ⟨lowerChar_big d (by omega), nfdChar_big d (by omega), isMn_big d (by omega)⟩

theorem flatMap_id_of (l : List Char) (f : Char → List Char)
    (h : ∀ a ∈ l, f a = [a]) : l.flatMap f = l := by
  induction l with
  | nil => rfl
  | cons a rest ih =>
    rw [List.flatMap_cons, h a (List.mem_cons_self _ _),
      ih (fun b hb => h b (List.mem_cons_of_mem _ hb))]
    rfl

theorem normList_idem (l : List Char) : normList (normList l) = normList l := by
  have hz : ∀ d ∈ normList l, lowerChar d = d ∧ nfdChar d = [d] ∧ isMn d = false := by
    intro d hd
    rcases mem_collapseWS _ d hd with hmem | rfl
    · obtain ⟨hfm, _⟩ := List.mem_filter.mp hmem
      obtain ⟨a, ha, hda⟩ := List.mem_flatMap.mp hfm
      obtain ⟨c, _, rfl⟩ := List.mem_map.mp ha
      refine post_fixed c d (List.mem_filter.mpr ⟨hda, ?_⟩)
      rcases List.mem_filter.mp hmem with ⟨_, hmn⟩
      exact hmn
    · refine ⟨by decide, by decide, by decide⟩
  conv_lhs => rw [normList]
  rw [List.map_congr_left (fun a ha => (hz a ha).1), List.map_id']
  rw [flatMap_id_of _ _ (fun a ha => (hz a ha).2.1)]
  rw [List.filter_eq_self.mpr (fun a ha => by simp [(hz a ha).2.2])]
  rw [show normList l = collapseWS (((l.map lowerChar).flatMap nfdChar).filter
    (fun c => !isMn c)) from rfl]
  exact collapseWS_idem _

/-- C9: `normalize` is idempotent: lowercasing, NFD-decomposing, dropping
combining marks and collapsing whitespace, applied twice, equals one
application (over the model's Unicode tables). -/
theorem C9_normalize_idempotent (s : String) :
    normalizeStr (normalizeStr s) = normalizeStr s := by
  unfold normalizeStr
  rw [show (String.mk (normList s.data)).data = normList s.data from rfl, normList_idem]
